import Mathlib

/-
Shallow embedding of the command-dispatch and logging-relay core of
ObjectBuilderTS.

Source map:
- LogLevel, LogEntry, LoggingService (addLog, subscribe, getLogs, clear,
  getLogCount, sendToBackend) are embedded from the LoggingService module
  (src/unnamed/part_000).
- WorkerCommunicator.handleCommand and the LogCommand wire shape are
  embedded from the WorkerCommunicator module (src/ui/src/components/
  PreferencesDialog.tsx, second file in that bundle) and the LogCommand
  module (src/unnamed/part_002).
- fromNumeric is the levelMap lookup of LogWindow.handleCommand
  (src/ui/src/components/LogWindow.tsx).

State is passed explicitly; the JavaScript Set of listeners is modelled as
a duplicate-free list in insertion order (JS Sets iterate in insertion
order); exceptions thrown by listeners, handlers and the IPC relay are
modelled with Except; Date timestamps are explicit Nat inputs.
-/

namespace OB

/-- The five symbolic severities of the LoggingService string enum. -/
inductive LogLevel
  | DEBUG
  | INFO
  | WARN
  | ERROR
  | FATAL
deriving DecidableEq

/-- The levelMap of LoggingService.sendToBackend: symbolic severity to
numeric wire code (debug 2, info 4, warn 6, error 8, fatal 1000). -/
def toNumeric : LogLevel → Nat
  | .DEBUG => 2
  | .INFO => 4
  | .WARN => 6
  | .ERROR => 8
  | .FATAL => 1000

/-- The levelMap lookup of LogWindow.handleCommand:
levelMap[command.level] with the fallback to LogLevel.INFO for a code
absent from the table (JS: levelMap[n] is undefined, so the expression
levelMap[n] or-else INFO yields INFO). -/
def fromNumeric (n : Nat) : LogLevel :=
  if n = 2 then .DEBUG
  else if n = 4 then .INFO
  else if n = 6 then .WARN
  else if n = 8 then .ERROR
  else if n = 1000 then .FATAL
  else .INFO

/-- The LogEntry interface of the LoggingService module. The loosely typed
context field is modelled as an optional string payload. -/
structure LogEntry where
  id : Nat
  timestamp : Nat
  level : LogLevel
  message : String
  stack : Option String
  source : Option String
  context : Option String
deriving DecidableEq

/-- The argument tuple of one LoggingService.addLog call, together with
the clock value at which it runs (new Date() and Date.now()). -/
structure RecordInput where
  level : LogLevel
  message : String
  stack : Option String
  source : Option String
  context : Option String
  timestamp : Nat
deriving DecidableEq

/-- The entry LoggingService.addLog constructs when the id counter reads
i: object literal at the top of addLog. -/
def mkEntry (i : Nat) (inp : RecordInput) : LogEntry :=
  ⟨i, inp.timestamp, inp.level, inp.message, inp.stack, inp.source, inp.context⟩

/-- Mutable fields of the LoggingService singleton: logs, listeners (a JS
Set, kept as a duplicate-free list in insertion order), nextId. -/
structure ServiceState where
  logs : List LogEntry
  listeners : List Nat
  nextId : Nat
deriving DecidableEq

/-- The field initializers of LoggingService. -/
def initialState : ServiceState := ⟨[], [], 0⟩

/-- this.maxLogs = 10000. -/
def maxLogs : Nat := 10000

/-- JS this.logs.slice(-this.maxLogs): the last maxLogs elements (the
whole list when it is shorter than maxLogs, as with JS slice). -/
def trimLogs (l : List LogEntry) : List LogEntry :=
  l.drop (l.length - maxLogs)

/-- Behavior environment for subscribed listeners: what the listener
keyed k does when invoked on an entry (returns or throws). -/
abbrev ListenerEnv := Nat → LogEntry → Except String Unit

/-- Wire shape of the LogCommand sent by sendToBackend over
window.electronAPI.sendCommand. -/
structure BackendMsg where
  type : String
  level : Nat
  message : String
  stack : Option String
  source : Option String
  timestamp : Nat
deriving DecidableEq

/-- Environment of the cross-process relay: whether window.electronAPI is
attached, and what awaiting sendCommand does (resolves or rejects). -/
structure RelayEnv where
  electronAvailable : Bool
  send : BackendMsg → Except String Unit

/-- Body of the try block of LoggingService.sendToBackend: when the
electron bridge is present, build the numeric-level LogCommand message and
await sendCommand, propagating its rejection; the returned option is the
message actually delivered. -/
def sendToBackendRaw (relay : RelayEnv) (level : LogLevel) (message : String)
    (stack source : Option String) (now : Nat) : Except String (Option BackendMsg) :=
  if relay.electronAvailable then
    (relay.send ⟨"LogCommand", toNumeric level, message, stack, source, now⟩).map
      (fun _ => some ⟨"LogCommand", toNumeric level, message, stack, source, now⟩)
  else
    Except.ok none

/-- LoggingService.sendToBackend: the try block wrapped in the catch that
silently discards any error (the catch body is empty). -/
def sendToBackend (relay : RelayEnv) (level : LogLevel) (message : String)
    (stack source : Option String) (now : Nat) : Option BackendMsg :=
  match sendToBackendRaw relay level message stack source now with
  | .ok m => m
  | .error _ => none

/-- The listeners.forEach loop of addLog: each listener is invoked with
the new entry inside a try whose catch prints to console.error; the first
component lists the invocations in iteration order, the second the
console.error diagnostics. -/
def notifyListeners (env : ListenerEnv) (entry : LogEntry) :
    List Nat → List (Nat × LogEntry) × List String
  | [] => ([], [])
  | k :: rest =>
    let tail := notifyListeners env entry rest
    match env k entry with
    | .ok _ => ((k, entry) :: tail.1, tail.2)
    | .error e => ((k, entry) :: tail.1, ("Error in log listener: " ++ e) :: tail.2)

/-- Observable effects of one addLog call: listener invocations, console
diagnostics, and messages actually delivered to the backend. -/
structure RecordEffects where
  notified : List (Nat × LogEntry)
  consoleErrors : List String
  backendSent : List BackendMsg
deriving DecidableEq

/-- LoggingService.addLog: allocate id (post-increment), construct the
entry, push, trim when over maxLogs, notify every listener with per
listener try catch, then fire sendToBackend. -/
def addLog (env : ListenerEnv) (relay : RelayEnv) (inp : RecordInput)
    (s : ServiceState) : ServiceState × RecordEffects :=
  let entry := mkEntry s.nextId inp
  let logs1 := s.logs ++ [entry]
  let logs2 := if logs1.length > maxLogs then logs1.drop (logs1.length - maxLogs) else logs1
  let nc := notifyListeners env entry s.listeners
  let sent := sendToBackend relay inp.level inp.message inp.stack inp.source inp.timestamp
  (⟨logs2, s.listeners, s.nextId + 1⟩, ⟨nc.1, nc.2, sent.toList⟩)

/-- State part of one addLog call. -/
def recordState (env : ListenerEnv) (relay : RelayEnv) (s : ServiceState)
    (inp : RecordInput) : ServiceState :=
  (addLog env relay inp s).1

/-- LoggingService.subscribe: this.listeners.add(listener) - a JS Set add
is a no-op when the listener is already present, else appends. -/
def subscribe (k : Nat) (s : ServiceState) : ServiceState :=
  if k ∈ s.listeners then s else ⟨s.logs, s.listeners ++ [k], s.nextId⟩

/-- The unsubscribe closure returned by subscribe:
this.listeners.delete(listener). -/
def unsubscribe (k : Nat) (s : ServiceState) : ServiceState :=
  ⟨s.logs, s.listeners.erase k, s.nextId⟩

/-- The optional filter argument of LoggingService.getLogs. -/
structure LogFilter where
  level : Option LogLevel
  source : Option String

/-- LoggingService.getLogs: filter by level then by source when the
filter fields are present. -/
def getLogs (filter : Option LogFilter) (s : ServiceState) : List LogEntry :=
  match filter with
  | none => s.logs
  | some f =>
    let l1 := match f.level with
      | some lv => s.logs.filter (fun e => e.level == lv)
      | none => s.logs
    match f.source with
    | some src => l1.filter (fun e => e.source == some src)
    | none => l1

/-- LoggingService.clear: this.logs = [] and this.nextId = 0. -/
def clear (s : ServiceState) : ServiceState :=
  ⟨[], s.listeners, 0⟩

/-- LoggingService.getLogCount: this.logs.length. -/
def getLogCount (s : ServiceState) : Nat :=
  s.logs.length

/-- The entries a sequence of addLog calls constructs when the id counter
starts at k: ids k, k+1, ... in call order. -/
def mkEntriesFrom : Nat → List RecordInput → List LogEntry
  | _, [] => []
  | k, inp :: rest => mkEntry k inp :: mkEntriesFrom (k + 1) rest

/-- A sequence of record calls against a fresh LoggingService. -/
def run (env : ListenerEnv) (relay : RelayEnv) (inputs : List RecordInput) : ServiceState :=
  inputs.foldl (recordState env relay) initialState

/-- A WorkerCommand as seen by WorkerCommunicator.handleCommand: either an
instance of the LogCommand class (level, message, optional stack and
source, timestamp) or an instance of some other command class identified
by its constructor name. -/
inductive WCommand
  | log (level : LogLevel) (message : String) (stack : Option String)
      (source : Option String) (timestamp : Nat)
  | plain (name : String)
deriving DecidableEq

/-- command.constructor.name. -/
def ctorName : WCommand → String
  | .log _ _ _ _ _ => "LogCommand"
  | .plain n => n

/-- Behavior of a registered callback when invoked: return a plain value,
throw synchronously, or return a promise that resolves or rejects. -/
inductive HOutcome
  | ok
  | threw (msg : String) (stack : Option String)
  | promiseOk
  | promiseRejected (msg : String) (stack : Option String)
deriving DecidableEq

/-- The _callbacks map of WorkerCommunicator, keyed by the command
constructor (identified by its name here, as no two command classes in
the repository share a name): lookup semantics of Map.get. -/
abbrev Registry := String → Option HOutcome

/-- WorkerCommunicator.registerCallback: Map.set, overwriting any earlier
callback for the same command class. -/
def registerCallback (r : Registry) (k : String) (cb : HOutcome) : Registry :=
  fun n => if n = k then some cb else r n

/-- Observable effects of one handleCommand call: sendCommand emissions on
the outbound channel in order, callback invocations in order, console
diagnostics. -/
structure DispatchResult where
  sent : List WCommand
  invoked : List String
  console : List String
deriving DecidableEq

/-- WorkerCommunicator.handleCommand: forward a LogCommand instance
untouched; otherwise look the constructor up in _callbacks; when absent,
drop a command whose constructor name is LogCommand with only a console
warning, else emit a WARN LogCommand; when present, invoke the callback
once, turning a synchronous throw or an asynchronous rejection into one
ERROR LogCommand sent outward. -/
def handleCommand (reg : Registry) (now : Nat) (cmd : WCommand) : DispatchResult :=
  let c0 := ["[WorkerCommunicator] handleCommand called for: " ++ ctorName cmd]
  match cmd with
  | .log lvl msg st src ts => ⟨[.log lvl msg st src ts], [], c0⟩
  | .plain name =>
    let c1 := c0 ++ ["[WorkerCommunicator] Callback lookup: " ++ name]
    match reg name with
    | none =>
      if name = "LogCommand" then
        ⟨[], [],
         c1 ++ ["[WorkerCommunicator] LogCommand should not be processed by handleCommand"]⟩
      else
        ⟨[.log .WARN ("No callback registered for command: " ++ name) none
            (some "WorkerCommunicator") now],
         [],
         c1 ++ ["[WorkerCommunicator] No callback found for " ++ name]⟩
    | some h =>
      let c2 := c1 ++ ["[WorkerCommunicator] Calling callback"]
      match h with
      | .ok => ⟨[], [name], c2⟩
      | .threw m st =>
        ⟨[.log .ERROR ("Error in callback for " ++ name ++ ": " ++ m) st
            (some "WorkerCommunicator") now],
         [name], c2 ++ ["Error in callback:"]⟩
      | .promiseOk => ⟨[], [name], c2⟩
      | .promiseRejected m st =>
        ⟨[.log .ERROR ("Error in async callback for " ++ name ++ ": " ++ m) st
            (some "WorkerCommunicator") now],
         [name], c2 ++ ["Error in async callback:"]⟩

/- Helper lemmas. -/

theorem maxLogs_eq : maxLogs = 10000 := rfl

theorem trimIf_eq_trimLogs (l : List LogEntry) :
    (if l.length > maxLogs then l.drop (l.length - maxLogs) else l) = trimLogs l := by
  unfold trimLogs
  by_cases h : l.length > maxLogs
  · simp [h]
  · have h0 : l.length - maxLogs = 0 := by omega
    simp [h, h0]

theorem trimLogs_append_singleton (l : List LogEntry) (e : LogEntry) :
    trimLogs (trimLogs l ++ [e]) = trimLogs (l ++ [e]) := by
  have hm : maxLogs = 10000 := rfl
  unfold trimLogs
  by_cases h : l.length ≤ maxLogs
  · have h0 : l.length - maxLogs = 0 := by omega
    rw [h0, List.drop_zero]
  · push_neg at h
    have hd : (l.drop (l.length - maxLogs)).length = maxLogs := by
      rw [List.length_drop]; omega
    rw [List.length_append, List.length_append, hd]
    have h1 : maxLogs + [e].length - maxLogs = 1 := by simp
    rw [h1]
    have h2 : (1 : Nat) ≤ (l.drop (l.length - maxLogs)).length := by omega
    rw [List.drop_append_of_le_length h2, List.drop_drop]
    have h3 : l.length + [e].length - maxLogs ≤ l.length := by
      simp only [List.length_singleton]; omega
    rw [List.drop_append_of_le_length h3]
    have h4 : l.length - maxLogs + 1 = l.length + [e].length - maxLogs := by
      simp only [List.length_singleton]; omega
    rw [h4]

theorem mkEntriesFrom_length (k : Nat) (l : List RecordInput) :
    (mkEntriesFrom k l).length = l.length := by
  induction l generalizing k with
  | nil => rfl
  | cons x t ih => simp [mkEntriesFrom, ih]

theorem mkEntriesFrom_append (k : Nat) (l m : List RecordInput) :
    mkEntriesFrom k (l ++ m) = mkEntriesFrom k l ++ mkEntriesFrom (k + l.length) m := by
  induction l generalizing k with
  | nil => simp [mkEntriesFrom]
  | cons x t ih =>
    simp only [List.cons_append, mkEntriesFrom, List.length_cons, List.append_eq]
    rw [ih (k + 1)]
    have h : k + 1 + t.length = k + (t.length + 1) := by omega
    rw [h]

theorem mkEntriesFrom_drop (m k : Nat) (l : List RecordInput) :
    (mkEntriesFrom k l).drop m = mkEntriesFrom (k + m) (l.drop m) := by
  induction l generalizing k m with
  | nil => simp [mkEntriesFrom]
  | cons x t ih =>
    cases m with
    | zero => simp [mkEntriesFrom]
    | succ m' =>
      simp only [mkEntriesFrom, List.drop_succ_cons, ih]
      have h : k + 1 + m' = k + (m' + 1) := by omega
      rw [h]

theorem mem_mkEntriesFrom {e : LogEntry} {k : Nat} {l : List RecordInput}
    (h : e ∈ mkEntriesFrom k l) : k ≤ e.id ∧ e.id < k + l.length := by
  induction l generalizing k with
  | nil => simp [mkEntriesFrom] at h
  | cons x t ih =>
    simp only [mkEntriesFrom, List.mem_cons] at h
    rcases h with h | h
    · subst h
      simp [mkEntry]
    · have := ih h
      simp only [List.length_cons]
      omega

theorem pairwise_id_mkEntriesFrom (k : Nat) (l : List RecordInput) :
    (mkEntriesFrom k l).Pairwise (fun a b => a.id < b.id) := by
  induction l generalizing k with
  | nil => exact List.Pairwise.nil
  | cons x t ih =>
    refine List.Pairwise.cons ?_ (ih (k + 1))
    intro b hb
    have := mem_mkEntriesFrom hb
    simp only [mkEntry]
    omega

theorem recordState_nextId (env : ListenerEnv) (relay : RelayEnv)
    (s : ServiceState) (inp : RecordInput) :
    (recordState env relay s inp).nextId = s.nextId + 1 := rfl

theorem recordState_listeners (env : ListenerEnv) (relay : RelayEnv)
    (s : ServiceState) (inp : RecordInput) :
    (recordState env relay s inp).listeners = s.listeners := rfl

theorem recordState_logs (env : ListenerEnv) (relay : RelayEnv)
    (s : ServiceState) (inp : RecordInput) :
    (recordState env relay s inp).logs = trimLogs (s.logs ++ [mkEntry s.nextId inp]) := by
  show (if (s.logs ++ [mkEntry s.nextId inp]).length > maxLogs then _ else _) = _
  exact trimIf_eq_trimLogs _

theorem run_spec (env : ListenerEnv) (relay : RelayEnv) (inputs : List RecordInput) :
    (run env relay inputs).nextId = inputs.length ∧
    (run env relay inputs).logs = trimLogs (mkEntriesFrom 0 inputs) := by
  induction inputs using List.reverseRecOn with
  | nil => exact ⟨rfl, rfl⟩
  | append_singleton l a ih =>
    obtain ⟨ih1, ih2⟩ := ih
    have hrun : run env relay (l ++ [a]) = recordState env relay (run env relay l) a := by
      simp [run, List.foldl_append]
    constructor
    · rw [hrun, recordState_nextId, ih1]
      simp
    · rw [hrun, recordState_logs, ih1, ih2, trimLogs_append_singleton,
        mkEntriesFrom_append]
      simp [mkEntriesFrom]

theorem run_logs_eq (env : ListenerEnv) (relay : RelayEnv) (inputs : List RecordInput) :
    (run env relay inputs).logs
      = mkEntriesFrom (inputs.length - maxLogs) (inputs.drop (inputs.length - maxLogs)) := by
  have h := (run_spec env relay inputs).2
  rw [h]
  unfold trimLogs
  rw [mkEntriesFrom_length, mkEntriesFrom_drop]
  simp

theorem notifyListeners_fst (env : ListenerEnv) (entry : LogEntry) (L : List Nat) :
    (notifyListeners env entry L).1 = L.map (fun k => (k, entry)) := by
  induction L with
  | nil => rfl
  | cons k rest ih =>
    simp only [notifyListeners, List.map_cons]
    cases env k entry with
    | ok _ => simp [ih]
    | error e => simp [ih]

theorem notifyListeners_err_mem {env : ListenerEnv} {entry : LogEntry} {L : List Nat}
    {k : Nat} {e : String} (hk : k ∈ L) (he : env k entry = .error e) :
    ("Error in log listener: " ++ e) ∈ (notifyListeners env entry L).2 := by
  induction L with
  | nil => simp at hk
  | cons j rest ih =>
    simp only [List.mem_cons] at hk
    rcases hk with hk | hk
    · subst hk
      simp only [notifyListeners, he]
      exact List.mem_cons_self _ _
    · simp only [notifyListeners]
      cases env j entry with
      | ok _ => exact ih hk
      | error e2 => exact List.mem_cons_of_mem _ (ih hk)

theorem addLog_fst (env : ListenerEnv) (relay : RelayEnv) (inp : RecordInput)
    (s : ServiceState) :
    (addLog env relay inp s).1
      = ⟨trimLogs (s.logs ++ [mkEntry s.nextId inp]), s.listeners, s.nextId + 1⟩ := by
  have h := recordState_logs env relay s inp
  have h2 := recordState_listeners env relay s inp
  have h3 := recordState_nextId env relay s inp
  unfold recordState at h h2 h3
  cases he : (addLog env relay inp s).1 with
  | mk a b c =>
    rw [he] at h h2 h3
    simp only at h h2 h3
    rw [h, h2, h3]

theorem addLog_notified (env : ListenerEnv) (relay : RelayEnv) (inp : RecordInput)
    (s : ServiceState) :
    (addLog env relay inp s).2.notified
      = s.listeners.map (fun k => (k, mkEntry s.nextId inp)) := by
  show (notifyListeners env (mkEntry s.nextId inp) s.listeners).1 = _
  exact notifyListeners_fst env _ s.listeners

theorem subscribe_idem (k : Nat) (s : ServiceState) :
    subscribe k (subscribe k s) = subscribe k s := by
  unfold subscribe
  by_cases h : k ∈ s.listeners
  · simp [h]
  · simp [h]

theorem subscribe_nextId (k : Nat) (s : ServiceState) :
    (subscribe k s).nextId = s.nextId := by
  unfold subscribe
  by_cases h : k ∈ s.listeners <;> simp [h]

theorem subscribe_count (k : Nat) (s : ServiceState) (h : s.listeners.Nodup) :
    (subscribe k s).listeners.count k = 1 := by
  unfold subscribe
  by_cases hk : k ∈ s.listeners
  · simp only [hk, if_true]
    exact List.count_eq_one_of_mem h hk
  · simp only [hk, if_false]
    simp only [List.count_append, List.count_eq_zero_of_not_mem hk]
    simp

theorem subscribe_nodup (k : Nat) (s : ServiceState) (h : s.listeners.Nodup) :
    (subscribe k s).listeners.Nodup := by
  unfold subscribe
  by_cases hk : k ∈ s.listeners
  · simpa [hk]
  · simp only [hk, if_false]
    rw [List.nodup_append]
    refine ⟨h, List.nodup_singleton k, ?_⟩
    intro a ha hb
    simp only [List.mem_singleton] at hb
    subst hb
    exact hk ha

/- Claim theorems. -/

/-- C8: fromNumeric is a total pure function given by the explicit lookup
table 2 to DEBUG, 4 to INFO, 6 to WARN, 8 to ERROR, 1000 to FATAL, and
every numeric code not present in the table (for example 999) maps to
INFO. -/
theorem c8_fromNumeric_table :
    fromNumeric 2 = LogLevel.DEBUG ∧ fromNumeric 4 = LogLevel.INFO ∧
    fromNumeric 6 = LogLevel.WARN ∧ fromNumeric 8 = LogLevel.ERROR ∧
    fromNumeric 1000 = LogLevel.FATAL ∧ fromNumeric 999 = LogLevel.INFO ∧
    ∀ n : Nat, n ≠ 2 → n ≠ 4 → n ≠ 6 → n ≠ 8 → n ≠ 1000 →
      fromNumeric n = LogLevel.INFO := by
  refine ⟨rfl, rfl, rfl, rfl, rfl, rfl, ?_⟩
  intro n h2 h4 h6 h8 h1000
  simp [fromNumeric, h2, h4, h6, h8, h1000]

/-- C8 witness: the fallback clause applied at the concrete unlisted code
7. -/
theorem c8_fromNumeric_table_witness :
    ((7 : Nat) ≠ 2 ∧ (7 : Nat) ≠ 4 ∧ (7 : Nat) ≠ 6 ∧ (7 : Nat) ≠ 8 ∧ (7 : Nat) ≠ 1000) ∧
    fromNumeric 7 = LogLevel.INFO :=
  ⟨by decide,
   c8_fromNumeric_table.2.2.2.2.2.2 7 (by decide) (by decide) (by decide) (by decide)
     (by decide)⟩

/-- C9 counterexample: 1001 is at least the FATAL threshold 1000, yet
fromNumeric 1001 is not FATAL (the table matches only the literal 1000;
everything else, above or below, falls back to INFO). -/
theorem c9_cex_1001_not_fatal :
    (1000 : Nat) ≤ 1001 ∧ fromNumeric 1001 ≠ LogLevel.FATAL := by
  constructor
  · decide
  · show (if (1001 : Nat) = 2 then LogLevel.DEBUG else _) ≠ _
    decide

/-- C9 amended: only the literal numeric code 1000 resolves to FATAL;
every other code, including every code strictly greater than 1000, falls
back to INFO, as do unrecognized codes below the threshold. -/
theorem c9_amended_only_literal_1000_fatal :
    fromNumeric 1000 = LogLevel.FATAL ∧
    (∀ n : Nat, 1000 < n → fromNumeric n = LogLevel.INFO) ∧
    (∀ n : Nat, n < 1000 → n ≠ 2 → n ≠ 4 → n ≠ 6 → n ≠ 8 →
      fromNumeric n = LogLevel.INFO) := by
  refine ⟨rfl, ?_, ?_⟩
  · intro n h
    have h2 : n ≠ 2 := by omega
    have h4 : n ≠ 4 := by omega
    have h6 : n ≠ 6 := by omega
    have h8 : n ≠ 8 := by omega
    have h1000 : n ≠ 1000 := by omega
    simp [fromNumeric, h2, h4, h6, h8, h1000]
  · intro n h h2 h4 h6 h8
    have h1000 : n ≠ 1000 := by omega
    simp [fromNumeric, h2, h4, h6, h8, h1000]

/-- C9 amended witness: the above-threshold clause applied at the
concrete code 1001. -/
theorem c9_amended_witness :
    (1000 : Nat) < 1001 ∧ fromNumeric 1001 = LogLevel.INFO :=
  ⟨by decide, c9_amended_only_literal_1000_fatal.2.1 1001 (by decide)⟩

/-- C4: a dispatched command that is an instance of LogCommand bypasses
the registry entirely: handleCommand gives the same result under any two
registries, forwards exactly the command itself on the outbound channel,
invokes no callback, and emits no new log command for it. -/
theorem c4_log_command_bypasses_registry (reg reg2 : Registry) (now : Nat)
    (lvl : LogLevel) (msg : String) (st src : Option String) (ts : Nat) :
    handleCommand reg now (.log lvl msg st src ts)
        = handleCommand reg2 now (.log lvl msg st src ts) ∧
    (handleCommand reg now (.log lvl msg st src ts)).sent
        = [.log lvl msg st src ts] ∧
    (handleCommand reg now (.log lvl msg st src ts)).invoked = [] :=
  ⟨rfl, rfl, rfl⟩

/-- C3: any failure of the cross-process relay inside addLog is swallowed
silently. The resulting store state, the listener notifications and the
console diagnostics are identical under any two relay environments; a
relay whose send always rejects delivers nothing to the backend yet
leaves the state and every observable of record equal to those of a relay
whose send always resolves. -/
theorem c3_relay_failure_swallowed (env : ListenerEnv) (r1 r2 : RelayEnv)
    (inp : RecordInput) (s : ServiceState) (failMsg : String) :
    (addLog env r1 inp s).1 = (addLog env r2 inp s).1 ∧
    (addLog env r1 inp s).2.notified = (addLog env r2 inp s).2.notified ∧
    (addLog env r1 inp s).2.consoleErrors = (addLog env r2 inp s).2.consoleErrors ∧
    (addLog env ⟨true, fun _ => .error failMsg⟩ inp s).2.backendSent = [] ∧
    (addLog env ⟨true, fun _ => .error failMsg⟩ inp s).1
        = (addLog env ⟨true, fun _ => .ok ()⟩ inp s).1 :=
  ⟨rfl, rfl, rfl, rfl, rfl⟩

/-- C1: after more than 10000 record calls against a fresh store with no
intervening clear, getLogCount returns exactly 10000, the live entries
are exactly those of the most recent 10000 calls in call order (FIFO
eviction of the oldest), and every older entry id is gone. -/
theorem c1_capacity_fifo (env : ListenerEnv) (relay : RelayEnv)
    (inputs : List RecordInput) (h : inputs.length > 10000) :
    getLogCount (run env relay inputs) = 10000 ∧
    (run env relay inputs).logs
      = mkEntriesFrom (inputs.length - 10000) (inputs.drop (inputs.length - 10000)) ∧
    ∀ e ∈ (run env relay inputs).logs,
      inputs.length - 10000 ≤ e.id ∧ e.id < inputs.length := by
  have hl := run_logs_eq env relay inputs
  rw [maxLogs_eq] at hl
  refine ⟨?_, hl, ?_⟩
  · unfold getLogCount
    rw [hl, mkEntriesFrom_length, List.length_drop]
    omega
  · intro e he
    rw [hl] at he
    have hb := mem_mkEntriesFrom he
    rw [List.length_drop] at hb
    omega

/-- C1 witness: 10001 identical record calls leave exactly 10000 live
entries. -/
theorem c1_capacity_fifo_witness :
    (List.replicate 10001 (⟨.INFO, "m", none, none, none, 0⟩ : RecordInput)).length > 10000 ∧
    getLogCount (run (fun _ _ => .ok ()) ⟨false, fun _ => .ok ()⟩
      (List.replicate 10001 (⟨.INFO, "m", none, none, none, 0⟩ : RecordInput))) = 10000 :=
  ⟨by rw [List.length_replicate]; omega,
   (c1_capacity_fifo (fun _ _ => .ok ()) ⟨false, fun _ => .ok ()⟩ _
     (by rw [List.length_replicate]; omega)).1⟩

/-- C2: over any sequence of record calls with no intervening clear, the
live entry ids are strictly increasing in call order (so no two live
entries share an id), getLogs with no filter returns exactly the live
entries, which are the trailing segment of the call sequence in call
order; clear resets the id counter to 0, and the first record call after
a clear, or against a fresh store, yields the single entry with id 0. -/
theorem c2_ids_order_clear (env : ListenerEnv) (relay : RelayEnv)
    (inputs : List RecordInput) (s : ServiceState) (i : RecordInput) :
    (((run env relay inputs).logs).map LogEntry.id).Pairwise (fun a b => a < b) ∧
    getLogs none (run env relay inputs) = (run env relay inputs).logs ∧
    (run env relay inputs).logs
      = mkEntriesFrom (inputs.length - maxLogs) (inputs.drop (inputs.length - maxLogs)) ∧
    (clear s).nextId = 0 ∧
    (clear s).logs = [] ∧
    (recordState env relay (clear s) i).logs = [mkEntry 0 i] ∧
    (recordState env relay initialState i).logs = [mkEntry 0 i] := by
  refine ⟨?_, rfl, run_logs_eq env relay inputs, rfl, rfl, ?_, ?_⟩
  · rw [run_logs_eq, List.pairwise_map]
    exact pairwise_id_mkEntriesFrom _ _
  · rw [recordState_logs]
    simp [clear, trimLogs, maxLogs]
  · rw [recordState_logs]
    simp [initialState, trimLogs, maxLogs]

/-- C5: when the registered callback of a dispatched command throws
synchronously, or returns a promise that rejects, handleCommand emits
exactly one ERROR LogCommand carrying the failure message and stack,
tagged with the WorkerCommunicator source, invokes the callback exactly
once, and a dispatch of any kind whose registered callback succeeds still
invokes that callback normally with nothing emitted. -/
theorem c5_handler_failure_error_log (reg : Registry) (now : Nat) (name m : String)
    (st : Option String) :
    (reg name = some (.threw m st) →
      (handleCommand reg now (.plain name)).sent
          = [.log .ERROR ("Error in callback for " ++ name ++ ": " ++ m) st
              (some "WorkerCommunicator") now] ∧
      (handleCommand reg now (.plain name)).invoked = [name]) ∧
    (reg name = some (.promiseRejected m st) →
      (handleCommand reg now (.plain name)).sent
          = [.log .ERROR ("Error in async callback for " ++ name ++ ": " ++ m) st
              (some "WorkerCommunicator") now] ∧
      (handleCommand reg now (.plain name)).invoked = [name]) ∧
    (∀ name2, reg name2 = some .ok →
      (handleCommand reg now (.plain name2)).invoked = [name2] ∧
      (handleCommand reg now (.plain name2)).sent = []) := by
  refine ⟨?_, ?_, ?_⟩
  · intro h
    constructor <;> simp [handleCommand, h]
  · intro h
    constructor <;> simp [handleCommand, h]
  · intro name2 h
    constructor <;> simp [handleCommand, h]

/-- C5 witness: a registry with a throwing callback for kind A and a
successful one for kind B, applied at kind A. -/
theorem c5_handler_failure_error_log_witness :
    ((fun n => if n = "A" then some (HOutcome.threw "boom" none)
      else if n = "B" then some HOutcome.ok else none : Registry) "A"
        = some (HOutcome.threw "boom" none)) ∧
    (handleCommand
      (fun n => if n = "A" then some (HOutcome.threw "boom" none)
        else if n = "B" then some HOutcome.ok else none) 7
      (WCommand.plain "A")).invoked = ["A"] :=
  ⟨rfl, ((c5_handler_failure_error_log _ 7 "A" "boom" none).1 rfl).2⟩

/-- C6 counterexample: a dispatched command of an unregistered kind whose
constructor name is the string LogCommand (while not an instance of the
LogCommand class) is dropped with only a console warning: handleCommand
emits nothing at all, in particular not the single WARN log command the
claim requires for every unregistered kind. -/
theorem c6_cex_logcommand_named_kind :
    (fun _ => (none : Option HOutcome)) "LogCommand" = none ∧
    (handleCommand (fun _ => none) 0 (WCommand.plain "LogCommand")).sent = [] :=
  ⟨rfl, by simp [handleCommand]⟩

/-- C6 amended: for every dispatched command whose kind has no registered
callback and whose constructor name differs from the string LogCommand,
handleCommand emits exactly one WARN LogCommand naming the kind and
tagged with the WorkerCommunicator source, invokes nothing, and the
registry stays usable: any kind with a registered successful callback is
still dispatched normally; an unregistered command whose constructor name
is LogCommand is instead dropped with only a console warning. -/
theorem c6_amended_unregistered_warn (reg : Registry) (now : Nat) (name : String)
    (h1 : reg name = none) (h2 : name ≠ "LogCommand") :
    (handleCommand reg now (.plain name)).sent
        = [.log .WARN ("No callback registered for command: " ++ name) none
            (some "WorkerCommunicator") now] ∧
    (handleCommand reg now (.plain name)).invoked = [] ∧
    (∀ name2, reg name2 = some .ok →
      (handleCommand reg now (.plain name2)).invoked = [name2]) ∧
    (reg "LogCommand" = none →
      (handleCommand reg now (.plain "LogCommand")).sent = []) := by
  refine ⟨?_, ?_, ?_, ?_⟩
  · simp [handleCommand, h1, h2]
  · simp [handleCommand, h1, h2]
  · intro name2 h
    simp [handleCommand, h]
  · intro h
    simp [handleCommand, h]

/-- C6 amended witness: the empty registry and the unregistered kind Foo. -/
theorem c6_amended_unregistered_warn_witness :
    ((fun _ => (none : Option HOutcome)) "Foo" = none ∧ "Foo" ≠ "LogCommand") ∧
    (handleCommand (fun _ => none) 0 (WCommand.plain "Foo")).invoked = [] :=
  ⟨⟨rfl, by decide⟩,
   (c6_amended_unregistered_warn (fun _ => none) 0 "Foo" rfl (by decide)).2.1⟩

/-- C7: during one addLog call every subscribed listener is invoked with
the new entry in subscription order whatever any listener does, the
listener set and the logs after the call do not depend on listener
failures (exactly the one new entry is appended, trimmed to capacity), a
listener failure is reported on the console side channel, and a
subsequent record call again notifies every listener, including any that
threw, with the next entry. -/
theorem c7_listener_failure_isolated (env : ListenerEnv) (relay : RelayEnv)
    (inp inp2 : RecordInput) (s : ServiceState) :
    (addLog env relay inp s).2.notified
        = s.listeners.map (fun k => (k, mkEntry s.nextId inp)) ∧
    (addLog env relay inp s).1.listeners = s.listeners ∧
    (addLog env relay inp s).1.logs = trimLogs (s.logs ++ [mkEntry s.nextId inp]) ∧
    (∀ k e, k ∈ s.listeners → env k (mkEntry s.nextId inp) = .error e →
      ("Error in log listener: " ++ e) ∈ (addLog env relay inp s).2.consoleErrors) ∧
    (addLog env relay inp2 (addLog env relay inp s).1).2.notified
        = s.listeners.map (fun k => (k, mkEntry (s.nextId + 1) inp2)) := by
  refine ⟨addLog_notified env relay inp s, rfl, recordState_logs env relay s inp, ?_, ?_⟩
  · intro k e hk he
    exact notifyListeners_err_mem hk he
  · rw [addLog_notified]
    rfl

/-- C7 witness: two listeners of which the first throws; its error shows
up on the console side channel. -/
theorem c7_listener_failure_isolated_witness :
    ((0 : Nat) ∈ (⟨[], [0, 1], 0⟩ : ServiceState).listeners) ∧
    ("Error in log listener: " ++ "boom") ∈
      (addLog (fun k _ => if k = 0 then .error "boom" else .ok ())
        ⟨false, fun _ => .ok ()⟩ (⟨.INFO, "m", none, none, none, 0⟩ : RecordInput)
        (⟨[], [0, 1], 0⟩ : ServiceState)).2.consoleErrors :=
  ⟨by decide,
   (c7_listener_failure_isolated (fun k _ => if k = 0 then .error "boom" else .ok ())
     ⟨false, fun _ => .ok ()⟩ ⟨.INFO, "m", none, none, none, 0⟩
     ⟨.INFO, "m", none, none, none, 0⟩ ⟨[], [0, 1], 0⟩).2.2.2.1 0 "boom"
     (by decide) rfl⟩

/-- C10: on a duplicate-free listener set, subscribe is idempotent (any
number of repeated subscribe calls equals one), the listener is
registered exactly once, the set stays duplicate free, one record call
invokes that listener exactly once on the new entry, and the unsubscribe
capability removes the registration entirely. -/
theorem c10_subscribe_idempotent (k : Nat) (s : ServiceState) (env : ListenerEnv)
    (relay : RelayEnv) (inp : RecordInput) (m : Nat) (h : s.listeners.Nodup) :
    subscribe k (subscribe k s) = subscribe k s ∧
    (subscribe k)^[m + 1] s = subscribe k s ∧
    (subscribe k s).listeners.count k = 1 ∧
    (subscribe k s).listeners.Nodup ∧
    ((addLog env relay inp (subscribe k s)).2.notified.map Prod.fst).count k = 1 ∧
    (unsubscribe k (subscribe k s)).listeners.count k = 0 := by
  refine ⟨subscribe_idem k s, ?_, subscribe_count k s h, subscribe_nodup k s h, ?_, ?_⟩
  · induction m with
    | zero => rfl
    | succ m ih =>
      rw [Function.iterate_succ_apply', ih, subscribe_idem]
  · have hmap : (addLog env relay inp (subscribe k s)).2.notified.map Prod.fst
        = (subscribe k s).listeners := by
      rw [addLog_notified, List.map_map]
      have hcomp : (Prod.fst ∘ fun j : Nat => (j, mkEntry (subscribe k s).nextId inp)) = id := rfl
      rw [hcomp, List.map_id]
    rw [hmap, subscribe_count k s h]
  · show ((subscribe k s).listeners.erase k).count k = 0
    rw [List.count_erase_self, subscribe_count k s h]

/-- C10 witness: subscribing listener 3 to a fresh store and
unsubscribing it leaves no registration. -/
theorem c10_subscribe_idempotent_witness :
    (⟨[], [], 0⟩ : ServiceState).listeners.Nodup ∧
    (unsubscribe 3 (subscribe 3 (⟨[], [], 0⟩ : ServiceState))).listeners.count 3 = 0 :=
  ⟨by decide,
   (c10_subscribe_idempotent 3 ⟨[], [], 0⟩ (fun _ _ => .ok ())
     ⟨false, fun _ => .ok ()⟩ ⟨.INFO, "m", none, none, none, 0⟩ 1 (by decide)).2.2.2.2.2⟩

end OB
